import Mathlib

/-!
Verification of the trui reactive terminal-UI runtime (reconciliation engine).

This file shallowly embeds the parts of the source needed to settle the
specification claims:

* the `AppTask` event loop of `src/app.rs` (`AppTask::run`, `AppTask::render`),
  as an explicit step function on an `AppTaskState`;
* the render-loop side of `src/app.rs` (`App::render`, `App::build_widget_tree`,
  `App::run`), as pure functions over explicit state, with panics modelled as
  `Option.none`;
* the view build/rebuild identity protocol, modelled from the spec because the
  implementation (`view/core.rs`) is not part of the provided sources;
* `Styles::new` of `src/view/style.rs`, including a model of Rust's lazy,
  unconsumed `Iterator::inspect` chains.

Machine integers do not overflow in any modelled code path; identities are
monotone counters, so they are modelled as `Nat`.
-/

namespace Trui

/-- Node identities (`xilem_core::Id`): opaque, process-unique tokens allocated
from a monotone counter, modelled as naturals. -/
abbrev Ident := Nat

/-- A path of identities from the root down to a node (`xilem_core::IdPath`). -/
abbrev IdPath := List Ident

/-- Result of routing a message into the view tree (`xilem_core::MessageResult`).
The payload of `action` is irrelevant to the claims and omitted. -/
inductive MessageResult where
  | action
  | requestRebuild
  | nop
  | stale
deriving DecidableEq

/-- The state machine of the `AppTask` (`enum UiState` in `src/app.rs`):
`start` is the ready state, `delayed` means a render request was received but
deferred behind a debounce deadline, `wokeUI` means an async completion woke
the UI thread. -/
inductive UiState where
  | start
  | delayed
  | wokeUI
deriving DecidableEq

/-- The standard delay for waiting for async futures
(`const RENDER_DELAY: Duration = Duration::from_millis(5)` in `src/app.rs`),
in milliseconds. -/
def RENDER_DELAY : Nat := 5

/-- Notifications delivered to the `App` render loop over its event channel
(the `Event` values produced in `src/app.rs`). -/
inductive Event where
  | key
  | mouse
  | focusGained
  | focusLost
  | resize (width height : Nat)
  | start
  | quit
  | wake
deriving DecidableEq

/-- The test `matches!(e, Event::Quit)` from `App::run`. -/
def Event.isQuit : Event → Bool
  | Event.quit => true
  | _ => false

/-- Messages sent from the `App` (UI thread) to the `AppTask`
(`enum AppMessage` in `src/app.rs`).  For `events`, only the id path of each
queued `Message` is relevant to the modelled behaviour (the message bodies and
the application data they mutate are not observed by any claim). -/
inductive AppMessage where
  | events (paths : List IdPath)
  | wake (idPath : IdPath)
  | render (delay : Bool)
deriving DecidableEq

/-- The loop state of `AppTask::run`: the `pending_async` set and `ui_state`
fields of `struct AppTask`, the local `deadline` variable of `run`, and whether
`self.view`/`self.state` are populated (they are `None` until the first
render). -/
structure AppTaskState where
  pending_async : Finset Ident
  ui_state : UiState
  deadline : Option Nat
  hasView : Bool
deriving DecidableEq

/-- The input consumed by one iteration of `AppTask::run`'s loop:
`msg` is `Ok(Some(req))` (a request arrived), `closed` is `Ok(None)` (the
request channel closed), and `timeout` is `Err(_)` from
`tokio::time::timeout_at` (the armed deadline elapsed before the next
request; it can only occur while `deadline` is `Some`). -/
inductive TaskInput where
  | msg (m : AppMessage)
  | closed
  | timeout
deriving DecidableEq

/-- Observable effects of one loop iteration: whether `AppTask::render` ran
(a fresh view was produced and handed to the render loop), whether
`Event::Wake` was sent to the render loop, and whether the loop continues. -/
structure StepOut where
  rendered : Bool
  sentWake : Bool
  looped : Bool
deriving DecidableEq

/-- The state after `AppTask::render` returns and the caller resets `deadline`:
`render` hands the new view to the render loop, receives
`(view, state, pending)` back on the return channel (so `pending_async`
becomes the refreshed set reported by the rebuild), and sets
`ui_state = Start`.  Every call site in `AppTask::run` follows the call with
`deadline = None`. -/
def renderNow (newPending : Finset Ident) : AppTaskState :=
  { pending_async := newPending, ui_state := UiState.start, deadline := none, hasView := true }

/-- One iteration of the `AppTask::run` event loop, translated arm by arm from
`src/app.rs`.  `wakeResult` is the outcome of
`self.view.message(&id_path[1..], .., AsyncWake, ..)` as a function of the
root-stripped path (the view implementations live outside the modelled core);
`newPending` is the pending set handed back on the return channel if a render
happens during this iteration; `now` is the current instant.  A result of
`none` models a panic: `unwrap` of an absent view/state, or — for a wake with
an empty path — `&id_path[1..]` / `id_path.last().unwrap()`, which is why the
empty-path wake arm is split out (it panics whether or not a view exists). -/
def AppTask.step (wakeResult : IdPath → MessageResult) (newPending : Finset Ident)
    (now : Nat) (s : AppTaskState) (i : TaskInput) : Option (AppTaskState × StepOut) :=
  match i with
  | TaskInput.closed => some (s, ⟨false, false, false⟩)
  | TaskInput.timeout => some (renderNow newPending, ⟨true, false, true⟩)
  | TaskInput.msg (AppMessage.events paths) =>
    if s.hasView = false then none
    else if paths.any List.isEmpty then none
    else some (s, ⟨false, false, true⟩)
  | TaskInput.msg (AppMessage.wake []) => none
  | TaskInput.msg (AppMessage.wake (a :: rest)) =>
    if s.hasView = false then none
    else if wakeResult rest = MessageResult.requestRebuild then
      let sent := decide (s.ui_state = UiState.start)
      let s1 : AppTaskState :=
        if s.ui_state = UiState.start then { s with ui_state := UiState.wokeUI } else s
      let lastId := (a :: rest).getLast (List.cons_ne_nil a rest)
      let s2 : AppTaskState := { s1 with pending_async := s1.pending_async.erase lastId }
      if s2.pending_async = ∅ ∧ s2.ui_state = UiState.delayed then
        some (renderNow newPending, ⟨true, sent, true⟩)
      else some (s2, ⟨false, sent, true⟩)
    else some (s, ⟨false, false, true⟩)
  | TaskInput.msg (AppMessage.render delay) =>
    if delay = false ∨ s.pending_async = ∅ then
      some (renderNow newPending, ⟨true, false, true⟩)
    else
      some ({ s with deadline := some (now + RENDER_DELAY), ui_state := UiState.delayed },
        ⟨false, false, true⟩)

/-- Run a list of loop iterations, collecting the per-iteration outputs.
Propagates a panic (`none`). -/
def AppTask.runSteps (wakeResult : IdPath → MessageResult) (newPending : Finset Ident)
    (now : Nat) : AppTaskState → List TaskInput → Option (AppTaskState × List StepOut)
  | s, [] => some (s, [])
  | s, i :: is =>
    match AppTask.step wakeResult newPending now s i with
    | none => none
    | some (s1, o) =>
      match AppTask.runSteps wakeResult newPending now s1 is with
      | none => none
      | some (s2, os) => some (s2, o :: os)

/-- Number of renders performed along a trace of iteration outputs. -/
def renderCount (os : List StepOut) : Nat := (os.filter (fun o => o.rendered)).length

/-- A terminal size.  The source's `Size` holds `f64` components, but every
value flowing through `App::render` is integral: `term_size` is built from the
`u16` fields of `terminal.size()` and `self.size` only ever holds
`Size::default()` (zero) or a previous `term_size`, so `Nat` components model
the comparison `term_size != self.size` faithfully. -/
structure Size where
  width : Nat
  height : Nat
deriving DecidableEq

/-- The dirty-flag bits of the root `WidgetState` that `App::render` consults.
`PodFlags` is a bitflags set declared in `widget/core.rs`; only the four bits
named in `src/app.rs` matter here, and a structure of booleans models the
bitset (`intersects` of a union is the disjunction of the fields). -/
structure PodFlags where
  requestLayout : Bool
  requestPaint : Bool
  treeChanged : Bool
  viewContextChanged : Bool
deriving DecidableEq

/-- Which passes one `App::render` invocation runs, and the `self.size` it
leaves behind. -/
structure RenderPasses where
  layoutRan : Bool
  lifecycleRan : Bool
  paintRan : Bool
  newSize : Size
deriving DecidableEq

/-- The pass-selection logic of `App::render` (`src/app.rs`):
`needs_layout_recomputation` is
`flags.intersects(REQUEST_LAYOUT | TREE_CHANGED) || term_size != self.size`;
the layout pass (root `Pod::layout` plus `set_origin`) runs exactly when it
holds, and `self.size = term_size` is assigned only inside that branch; the
lifecycle pass runs when `VIEW_CONTEXT_CHANGED` is set; paint runs when
`REQUEST_PAINT` is set or a layout just ran. -/
def App.renderPasses (flags : PodFlags) (termSize size : Size) : RenderPasses :=
  let needs_layout_recomputation :=
    (flags.requestLayout || flags.treeChanged) || decide (termSize ≠ size)
  { layoutRan := needs_layout_recomputation
    lifecycleRan := flags.viewContextChanged
    paintRan := flags.requestPaint || needs_layout_recomputation
    newSize := if needs_layout_recomputation then termSize else size }

/-- A retained root widget as `App::build_widget_tree` sees it: a type-erased
`Pod` whose inner widget has a runtime type (`widgetType`, standing for a
`TypeId`) and some content (`payload`).  A `&mut W` obtained by downcasting
can change the content but never the type, which the model reflects. -/
structure Pod where
  widgetType : Nat
  payload : Nat
deriving DecidableEq

/-- `Pod::downcast_mut::<W>()`: succeeds exactly when the inner widget's
runtime type is the requested one. -/
def Pod.downcast_mut (p : Pod) (expected : Nat) : Option Pod :=
  if p.widgetType = expected then some p else none

/-- The build context threaded through `build`/`rebuild` (`Cx` in
`view/core.rs`, which is not under `src/`): the current id path and the
pending-async registrations, per spec section 4.2. -/
structure Cx where
  idPath : List Ident
  pending_async : Finset Ident
deriving DecidableEq

/-- `Cx::new`: path empty, no pending registrations. -/
def Cx.new : Cx := ⟨[], ∅⟩

/-- Modelled from the spec: `Cx::is_empty` (in `view/core.rs`, not under
`src/`) is the check `assert!(self.cx.is_empty(), ..)` relies on; the spec's
section 4.2 describes the current path as a strict stack asserted empty at the
start and end of every top-level build/rebuild, so `is_empty` tests emptiness
of the current id path. -/
def Cx.is_empty (cx : Cx) : Bool := cx.idPath.isEmpty

/-- The behaviour of a root view value as `App::build_widget_tree` consumes
it: `build` produces `(Id, State, Element)` while transforming the context
arbitrarily, `rebuild` updates the retained identity, state and (through
`&mut V::Element`) the widget content, and `elementType` is the runtime type
of `V::Element`, the downcast target.  The functions are unconstrained
parameters because the view implementations live outside the modelled core. -/
structure ViewOps (S : Type) where
  build : Cx → Cx × (Ident × S × Pod)
  rebuild : Cx → Ident → S → Pod → Cx × (Ident × S × Nat)
  elementType : Nat

/-- The parts of `struct RenderResponse` that `App::build_widget_tree`
unwraps besides the view itself: whether `prev` is populated, and the returned
state. -/
structure RenderResponse (S : Type) where
  hasPrev : Bool
  state : Option S

/-- The fields of `App` that `build_widget_tree` reads and writes: the build
context, the retained root pod and the root identity. -/
structure AppUi where
  cx : Cx
  root_pod : Option Pod
  id : Option Ident
deriving DecidableEq

/-- The corresponding fields as `App::new` initialises them. -/
def AppUi.initial : AppUi := ⟨Cx.new, none, none⟩

/-- `App::build_widget_tree` (`src/app.rs`): clear `cx.pending_async`, send
the render request, receive the response (modelled as the `resp`/`v`
arguments; the channel-closed case returns `false` without touching state and
is omitted).  With a retained root pod: unwrap `response.state`,
`response.prev` and `self.id`, downcast the root widget — `.expect(..)` panics
(`none`) on a type mismatch — run `rebuild`, then
`assert!(self.cx.is_empty())` (panic when the path is unbalanced).  Without
one: run `build`, assert the same, and install the new root pod and id.
Finally take the pending set out of the context and report whether it is
non-empty.  (`root_pod.mark(changes)` only feeds the dirty flags modelled
separately in `App.renderPasses` and is not tracked here.) -/
def App.build_widget_tree {S : Type} (v : ViewOps S) (resp : RenderResponse S)
    (app : AppUi) : Option (AppUi × Bool) :=
  let cx0 : Cx := { app.cx with pending_async := ∅ }
  match app.root_pod with
  | some pod =>
    match resp.state, resp.hasPrev, app.id with
    | some st, true, some rootId =>
      match pod.downcast_mut v.elementType with
      | none => none
      | some w =>
        let (cx1, r) := v.rebuild cx0 rootId st w
        if cx1.is_empty then
          some ({ cx := { idPath := cx1.idPath, pending_async := ∅ },
                  root_pod := some ⟨pod.widgetType, r.2.2⟩, id := some r.1 },
            decide (cx1.pending_async ≠ ∅))
        else none
    | _, _, _ => none
  | none =>
    let (cx1, r) := v.build cx0
    if cx1.is_empty then
      some ({ cx := { idPath := cx1.idPath, pending_async := ∅ },
              root_pod := some r.2.2, id := some r.1 },
        decide (cx1.pending_async ≠ ∅))
    else none

/-- A sequence of render passes as driven by successive cycles of `App::run`:
each entry supplies the view and the `AppTask` response for one
`build_widget_tree` call; a panic anywhere aborts the run. -/
def App.renderSeq {S : Type} : List (ViewOps S × RenderResponse S) → AppUi → Option AppUi
  | [], app => some app
  | (v, r) :: rest, app =>
    match App.build_widget_tree v r app with
    | none => none
    | some (app1, _) => App.renderSeq rest app1

/-- The observable actions of one cycle of `App::run`'s main loop, in
program order. -/
inductive UiAction where
  | dispatchEvent (e : Event)
  | sendEvents
  | requestRender
deriving DecidableEq

/-- One cycle of `App::run`'s main loop (`src/app.rs`): block for one
notification (`first`), drain the already-available rest without blocking
(`drained`), note whether any is `Quit`; if a root pod exists
(`hasRoot`) dispatch every notification into it in arrival order; call
`send_events`, which forwards the accumulated outbound messages when there are
any (`queuedMsgs`); then call `self.render()`.  The second component is the
`quit` flag consulted after the render: `true` means the loop breaks once the
cycle is complete. -/
def App.cycle (first : Event) (drained : List Event) (hasRoot : Bool) (queuedMsgs : Bool) :
    List UiAction × Bool :=
  let events := first :: drained
  let quit := events.any Event.isQuit
  (((if hasRoot then events.map UiAction.dispatchEvent else []) ++
      (if queuedMsgs then [UiAction.sendEvents] else [])) ++ [UiAction.requestRender], quit)

/-- A well-behaved concrete view for witnesses: builds a widget of type `7`
and leaves the context untouched. -/
def vopsId : ViewOps Unit :=
  { build := fun cx => (cx, (0, (), ⟨7, 0⟩))
    rebuild := fun cx i s _ => (cx, (i, s, 1))
    elementType := 7 }

/-- A view expecting element type `8`, for the downcast-mismatch witness. -/
def vopsBad : ViewOps Unit :=
  { build := fun cx => (cx, (0, (), ⟨8, 0⟩))
    rebuild := fun cx i s _ => (cx, (i, s, 1))
    elementType := 8 }

/-- The response accompanying a first build: no previous view, no state. -/
def respFirst : RenderResponse Unit := ⟨false, none⟩

/-- The response accompanying a rebuild: previous view and state present. -/
def respNext : RenderResponse Unit := ⟨true, some ()⟩

/-- An `App` retaining a root pod of widget type `7`. -/
def appWithPod : AppUi := ⟨Cx.new, some ⟨7, 0⟩, some 0⟩

mutual
/-- Modelled from the spec: view values (spec section 3): an immutable
description of one subtree, a node kind plus child views.  The concrete view
implementations (`view/core.rs` and the `view/` modules) are not under
`src/`.  A dedicated list type keeps the mutual recursion structural. -/
inductive ViewT where
  | node (kind : Nat) (children : ViewList)
deriving DecidableEq
inductive ViewList where
  | nil
  | cons (v : ViewT) (vs : ViewList)
deriving DecidableEq
end

mutual
/-- The retained association of one view node with its Identity (`ident`) and
its private per-node state token (`st`), mirroring the view-tree shape. -/
inductive IdTree where
  | node (ident : Nat) (st : Nat) (children : IdForest)
deriving DecidableEq
inductive IdForest where
  | nil
  | cons (t : IdTree) (ts : IdForest)
deriving DecidableEq
end

mutual
/-- Modelled from the spec: `View::build` (spec section 4.1, implementation in
`view/core.rs`, not under `src/`): allocates a fresh Identity and a fresh
private-state token for the node from the monotone counter `c`, then
recursively builds the children. -/
def ViewT.build : ViewT → Nat → IdTree × Nat
  | ViewT.node _k cs, c =>
    let (f, c2) := ViewList.buildAll cs (c + 2)
    (IdTree.node c (c + 1) f, c2)
def ViewList.buildAll : ViewList → Nat → IdForest × Nat
  | ViewList.nil, c => (IdForest.nil, c)
  | ViewList.cons v vs, c =>
    let (t, c1) := ViewT.build v c
    let (f, c2) := ViewList.buildAll vs c1
    (IdForest.cons t f, c2)
end

mutual
/-- Modelled from the spec: `View::rebuild` (spec section 4.1, implementation
in `view/core.rs`, not under `src/`): when the new view is structurally
compatible with the previous one (same node kind at the same position) the
existing Identity and private state are reused and the children are rebuilt
pairwise; otherwise the retained subtree is discarded and built fresh.
Surplus retained children are dropped; surplus new children are built fresh. -/
def ViewT.rebuild : ViewT → ViewT → IdTree → Nat → IdTree × Nat
  | ViewT.node pk pcs, ViewT.node nk ncs, IdTree.node ident st f, c =>
    if pk = nk then
      let (f1, c1) := ViewList.rebuildAll pcs ncs f c
      (IdTree.node ident st f1, c1)
    else
      ViewT.build (ViewT.node nk ncs) c
def ViewList.rebuildAll : ViewList → ViewList → IdForest → Nat → IdForest × Nat
  | ViewList.nil, ViewList.nil, _, c => (IdForest.nil, c)
  | ViewList.nil, ViewList.cons n ns, _, c => ViewList.buildAll (ViewList.cons n ns) c
  | ViewList.cons _ _, ViewList.nil, _, c => (IdForest.nil, c)
  | ViewList.cons _p _ps, ViewList.cons n ns, IdForest.nil, c =>
    ViewList.buildAll (ViewList.cons n ns) c
  | ViewList.cons p ps, ViewList.cons n ns, IdForest.cons t ts, c =>
    let (t1, c1) := ViewT.rebuild p n t c
    let (f1, c2) := ViewList.rebuildAll ps ns ts c1
    (IdForest.cons t1 f1, c2)
end

mutual
/-- A retained id/state tree has the same shape as a view tree. -/
inductive Conforms : ViewT → IdTree → Prop
  | node (k ident st : Nat) (cs : ViewList) (f : IdForest) :
      ConformsAll cs f → Conforms (ViewT.node k cs) (IdTree.node ident st f)
inductive ConformsAll : ViewList → IdForest → Prop
  | nil : ConformsAll ViewList.nil IdForest.nil
  | cons (v : ViewT) (vs : ViewList) (t : IdTree) (f : IdForest) :
      Conforms v t → ConformsAll vs f →
      ConformsAll (ViewList.cons v vs) (IdForest.cons t f)
end

/-- A sequence of `n` rebuild calls against the same view value, threading the
retained id/state tree and the identity counter through, as the render loop
does on structurally unchanged frames. -/
def iterateRebuild (v : ViewT) : Nat → IdTree × Nat → IdTree × Nat
  | 0, tc => tc
  | n + 1, (t, c) => iterateRebuild v n (ViewT.rebuild v v t c)

/-- A style as observed through the `Style` trait object by `Styles::new`
(`src/view/style.rs`): only `id()` is touched by the (unconsumed) indexing
code; `position`, `selectivity` and `classes` are carried for completeness. -/
structure StyleV where
  position : Nat
  selectivity : Nat
  id : Option String
  classes : List String
deriving DecidableEq

/-- The `Styles` struct of `src/view/style.rs`.  The four `HashMap`s are
modelled as association lists (only ever empty in the code under scrutiny).
`styles_by_widget_type_id` keys are `TypeId`s, modelled as naturals. -/
structure Styles where
  styles : List StyleV
  styles_by_id : List (String × List StyleV)
  styles_by_widget_type_id : List (Nat × List StyleV)
  styles_by_class : List (String × List StyleV)
  styles_by_attribute : List (String × List StyleV)
deriving DecidableEq

/-- Rust's `Iterator::inspect` adapter: it lazily pairs the underlying items
with a side-effecting closure, and the closure runs only if the adapter is
consumed (iterated).  An adapter that is constructed and dropped has no
effect. -/
structure InspectIter (α σ : Type) where
  items : List α
  effect : α → σ → σ

/-- What consuming an `inspect` adapter would do: run the closure over every
item in order. -/
def InspectIter.consume {α σ : Type} (it : InspectIter α σ) (s : σ) : σ :=
  it.items.foldl (fun acc x => it.effect x acc) s

/-- The body of the inner `inspect` closure in `Styles::new`, translated from
the source: `if let Some(v) = styles_by_id.get_mut(id) { v.push(s) } else
{ styles_by_id.insert(id, vec![s]) }`. -/
def insertById (s : StyleV) (ident : String) (m : List (String × List StyleV)) :
    List (String × List StyleV) :=
  if m.any (fun p => decide (p.1 = ident)) then
    m.map (fun p => if p.1 = ident then (p.1, p.2 ++ [s]) else p)
  else m ++ [(ident, [s])]

/-- The outer `inspect` closure of `Styles::new`: for a style `s` it builds
the chain `s.id().into_iter().inspect(|id| .. insertById ..)` — and drops it
unconsumed, so the net effect on the map is none. -/
def outerInspectBody (s : StyleV) (m : List (String × List StyleV)) :
    List (String × List StyleV) :=
  let _inner : InspectIter String (List (String × List StyleV)) :=
    { items := s.id.toList, effect := insertById s }
  m

/-- `Styles::new` (`src/view/style.rs`): initialise every map empty, then
evaluate `styles.styles.iter().inspect(|s| { .. })` as a statement — the
adapter below is constructed and immediately dropped without ever being
iterated, so none of the closures run and the maps keep their initial
values. -/
def Styles.new (styles : List StyleV) : Styles :=
  let styles0 : Styles :=
    { styles := styles, styles_by_id := [], styles_by_widget_type_id := []
      styles_by_class := [], styles_by_attribute := [] }
  let _chain : InspectIter StyleV (List (String × List StyleV)) :=
    { items := styles0.styles, effect := outerInspectBody }
  styles0

end Trui

namespace Trui

lemma getLast_pair (r i : Ident) (h : ([r, i] : List Ident) ≠ []) :
    ([r, i] : List Ident).getLast h = i := rfl

lemma runSteps_cons (wakeResult : IdPath → MessageResult) (newPending : Finset Ident)
    (now : Nat) (s : AppTaskState) (i : TaskInput) (is : List TaskInput)
    (s1 s2 : AppTaskState) (o : StepOut) (os : List StepOut)
    (h : AppTask.step wakeResult newPending now s i = some (s1, o))
    (h2 : AppTask.runSteps wakeResult newPending now s1 is = some (s2, os)) :
    AppTask.runSteps wakeResult newPending now s (i :: is) = some (s2, o :: os) := by
  simp [AppTask.runSteps, h, h2]

/-- If an iteration of the loop performs a render, the input was either the
elapsed deadline, an immediate render request, or a rebuild-requesting wake
that emptied the pending set while the state machine was `Delayed`. -/
lemma step_rendered_cases (wakeResult : IdPath → MessageResult) (newPending : Finset Ident)
    (now : Nat) (s : AppTaskState) (i : TaskInput) (s2 : AppTaskState) (o : StepOut)
    (h : AppTask.step wakeResult newPending now s i = some (s2, o))
    (hr : o.rendered = true) :
    i = TaskInput.timeout
    ∨ (∃ d, i = TaskInput.msg (AppMessage.render d) ∧ (d = false ∨ s.pending_async = ∅))
    ∨ (∃ a rest, i = TaskInput.msg (AppMessage.wake (a :: rest)) ∧
        wakeResult rest = MessageResult.requestRebuild ∧
        (if s.ui_state = UiState.start then UiState.wokeUI else s.ui_state) = UiState.delayed ∧
        s.pending_async.erase ((a :: rest).getLast (List.cons_ne_nil a rest)) = ∅) := by
  match i with
  | TaskInput.closed =>
    simp only [AppTask.step, Option.some.injEq, Prod.mk.injEq] at h
    rw [← h.2] at hr
    exact absurd hr (by decide)
  | TaskInput.timeout => exact Or.inl rfl
  | TaskInput.msg (AppMessage.render d) =>
    simp only [AppTask.step] at h
    split at h
    · exact Or.inr (Or.inl ⟨d, rfl, by assumption⟩)
    · simp only [Option.some.injEq, Prod.mk.injEq] at h
      rw [← h.2] at hr
      exact absurd hr (by decide)
  | TaskInput.msg (AppMessage.events paths) =>
    simp only [AppTask.step] at h
    split at h
    · exact absurd h (by simp)
    · split at h
      · exact absurd h (by simp)
      · simp only [Option.some.injEq, Prod.mk.injEq] at h
        rw [← h.2] at hr
        exact absurd hr (by decide)
  | TaskInput.msg (AppMessage.wake []) =>
    exact absurd h (by simp [AppTask.step])
  | TaskInput.msg (AppMessage.wake (a :: rest)) =>
    simp only [AppTask.step] at h
    split_ifs at h with hv hw hst hc hc2
    · exact absurd hc.2 (by decide)
    · simp only [Option.some.injEq, Prod.mk.injEq] at h
      rw [← h.2] at hr
      simp at hr
    · refine Or.inr (Or.inr ⟨a, rest, rfl, hw, ?_, hc2.1⟩)
      rw [if_neg hst]
      exact hc2.2
    · simp only [Option.some.injEq, Prod.mk.injEq] at h
      rw [← h.2] at hr
      simp at hr
    · simp only [Option.some.injEq, Prod.mk.injEq] at h
      rw [← h.2] at hr
      exact absurd hr (by decide)

/-- A rebuild-requesting wake in the `Delayed` state whose removal leaves the
pending set non-empty neither renders nor sends a wake event. -/
lemma step_wake_delayed_nonempty (r i now dl : Nat) (np S2 : Finset Ident)
    (hS2 : S2 ≠ ∅) (S : Finset Ident) (hS : S.erase i = S2) :
    AppTask.step (fun _ => MessageResult.requestRebuild) np now
        ⟨S, UiState.delayed, some dl, true⟩ (TaskInput.msg (AppMessage.wake [r, i])) =
      some (⟨S2, UiState.delayed, some dl, true⟩, ⟨false, false, true⟩) := by
  simp [AppTask.step, getLast_pair, hS, hS2]

/-- Debounce burst, the general shape: from the `Delayed` state with an armed
deadline and pending set listed (without duplicates) by `ids`, the sequence of
rebuild-requesting wakes for exactly those identities renders exactly once —
at the final wake, which empties the set — and cancels the deadline. -/
lemma burst_aux (r now dl : Nat) (np : Finset Ident) :
    ∀ (ids : List Ident), ids ≠ [] → ids.Nodup →
      ∃ os, AppTask.runSteps (fun _ => MessageResult.requestRebuild) np now
          ⟨ids.toFinset, UiState.delayed, some dl, true⟩
          (ids.map (fun i => TaskInput.msg (AppMessage.wake [r, i]))) =
        some (⟨np, UiState.start, none, true⟩, os) ∧ renderCount os = 1 := by
  intro ids
  induction ids with
  | nil => intro h; exact absurd rfl h
  | cons i tl ih =>
    intro _ hnd
    cases tl with
    | nil =>
      refine ⟨[⟨true, false, true⟩], ?_, rfl⟩
      simp [AppTask.runSteps, AppTask.step, getLast_pair, renderNow]
    | cons j tl2 =>
      have hnotmem : i ∉ (j :: tl2).toFinset := by
        rw [List.mem_toFinset]
        exact (List.nodup_cons.mp hnd).1
      have herase : (i :: j :: tl2).toFinset.erase i = (j :: tl2).toFinset := by
        rw [List.toFinset_cons, Finset.erase_insert hnotmem]
      have hne2 : (j :: tl2).toFinset ≠ ∅ := by
        rw [List.toFinset_cons]
        exact Finset.insert_ne_empty j tl2.toFinset
      obtain ⟨os, hrun, hcount⟩ := ih (by simp) (List.nodup_cons.mp hnd).2
      refine ⟨⟨false, false, true⟩ :: os, ?_, by simpa [renderCount] using hcount⟩
      rw [List.map_cons]
      exact runSteps_cons _ _ _ _ _ _ _ _ _ _
        (step_wake_delayed_nonempty r i now dl np (j :: tl2).toFinset hne2
          (i :: j :: tl2).toFinset herase) hrun

/-- Claim C5: whenever the armed debounce deadline elapses before the next
request arrives (the `Err(_)` arm of `AppTask::run`), the Logic Task renders
immediately — for an arbitrary, possibly non-empty pending-async set — and the
deadline is cleared afterwards. -/
theorem deadline_elapsed_renders (wakeResult : IdPath → MessageResult)
    (newPending : Finset Ident) (now : Nat) (s : AppTaskState) (d : Nat)
    (_hd : s.deadline = some d) :
    AppTask.step wakeResult newPending now s TaskInput.timeout =
      some (⟨newPending, UiState.start, none, true⟩, ⟨true, false, true⟩) := rfl

/-- Witness for C5 at a concrete state with a non-empty pending set. -/
theorem deadline_elapsed_renders_witness :
    AppTask.step (fun _ => MessageResult.nop) {9} 0 ⟨{1, 2}, UiState.delayed, some 3, true⟩
        TaskInput.timeout =
      some (⟨{9}, UiState.start, none, true⟩, ⟨true, false, true⟩) :=
  deadline_elapsed_renders (fun _ => MessageResult.nop) {9} 0
    ⟨{1, 2}, UiState.delayed, some 3, true⟩ 3 rfl

/-- Claim C2: on `AppMessage::Render(delay)`, if `delay` is false or the
pending-async set is empty the task renders immediately and clears the
deadline; otherwise it renders nothing, arms the fixed deadline
`now + RENDER_DELAY` (with `RENDER_DELAY = 5` ms) and enters `Delayed`; and
while `Delayed` with pending work, no other input renders until either the
deadline elapses or a completion empties the pending set (render requests are
excluded there because the single-slot handshake keeps the `App` blocked on
the response, so no further `Render` can arrive). -/
theorem render_request_debounce (wakeResult : IdPath → MessageResult)
    (newPending : Finset Ident) (now : Nat) (s : AppTaskState) (delay : Bool) :
    ((delay = false ∨ s.pending_async = ∅) →
      AppTask.step wakeResult newPending now s (TaskInput.msg (AppMessage.render delay)) =
        some (⟨newPending, UiState.start, none, true⟩, ⟨true, false, true⟩))
    ∧ ((delay = true ∧ s.pending_async ≠ ∅) →
      AppTask.step wakeResult newPending now s (TaskInput.msg (AppMessage.render delay)) =
        some (⟨s.pending_async, UiState.delayed, some (now + RENDER_DELAY), s.hasView⟩,
          ⟨false, false, true⟩))
    ∧ RENDER_DELAY = 5
    ∧ (∀ (i : TaskInput) (s2 : AppTaskState) (o : StepOut),
        s.ui_state = UiState.delayed → s.pending_async ≠ ∅ →
        (∀ d, i ≠ TaskInput.msg (AppMessage.render d)) →
        AppTask.step wakeResult newPending now s i = some (s2, o) → o.rendered = true →
        i = TaskInput.timeout ∨
          ∃ a rest, i = TaskInput.msg (AppMessage.wake (a :: rest)) ∧
            s.pending_async.erase ((a :: rest).getLast (List.cons_ne_nil a rest)) = ∅) := by
  refine ⟨?_, ?_, rfl, ?_⟩
  · intro h
    simp only [AppTask.step]
    rw [if_pos h]
    rfl
  · rintro ⟨hd, hne⟩
    subst hd
    simp only [AppTask.step]
    rw [if_neg (by simpa using hne)]
  · intro i s2 o _hui hne hnr hstep hr
    rcases step_rendered_cases _ _ _ _ _ _ _ hstep hr with h1 | ⟨d, hd, _⟩ |
      ⟨a, rest, hi, _hw, _hif, he⟩
    · exact Or.inl h1
    · exact absurd hd (hnr d)
    · exact Or.inr ⟨a, rest, hi, he⟩

/-- Witness for C2: a delayed render request with pending work arms the
deadline and does not render. -/
theorem render_request_debounce_witness :
    AppTask.step (fun _ => MessageResult.nop) ∅ 10 ⟨{1}, UiState.start, none, true⟩
        (TaskInput.msg (AppMessage.render true)) =
      some (⟨{1}, UiState.delayed, some (10 + RENDER_DELAY), true⟩, ⟨false, false, true⟩) :=
  (render_request_debounce (fun _ => MessageResult.nop) ∅ 10
    ⟨{1}, UiState.start, none, true⟩ true).2.1 ⟨rfl, by decide⟩

/-- Counterexample to claim C3 as stated: a wake whose message outcome is not
`RequestRebuild` (here `Nop`) removes nothing — the final identity `1` of the
wake path `[0, 1]` is still pending afterwards, because the removal in the
`AppMessage::Wake` arm of `AppTask::run` happens only inside
`if needs_rebuild`. -/
theorem wake_nop_keeps_pending_counterexample :
    (AppTask.step (fun _ => MessageResult.nop) ∅ 0 ⟨{1, 2}, UiState.start, none, true⟩
        (TaskInput.msg (AppMessage.wake [0, 1]))).map
          (fun p => p.1.pending_async) = some {1, 2} ∧
    (1 : Ident) ∈ ({1, 2} : Finset Ident) := by decide

/-- Claim C3 (amended): for a wake whose message outcome requests a rebuild,
the final identity of the path is removed from the pending-async set and no
other identity is removed (unless this very removal empties the set in the
`Delayed` state, in which case an immediate render replaces the set by the
freshly reported one); a wake whose outcome does not request a rebuild leaves
the state entirely unchanged. -/
theorem wake_removes_exactly_last (wakeResult : IdPath → MessageResult) (np : Finset Ident)
    (now : Nat) (s : AppTaskState) (a : Ident) (rest : List Ident)
    (hv : s.hasView = true) :
    (wakeResult rest = MessageResult.requestRebuild →
      ∃ s2 o, AppTask.step wakeResult np now s (TaskInput.msg (AppMessage.wake (a :: rest))) =
          some (s2, o) ∧
        (o.rendered = false →
          s2.pending_async =
              s.pending_async.erase ((a :: rest).getLast (List.cons_ne_nil a rest)) ∧
          (a :: rest).getLast (List.cons_ne_nil a rest) ∉ s2.pending_async ∧
          ∀ y, y ≠ (a :: rest).getLast (List.cons_ne_nil a rest) →
            (y ∈ s2.pending_async ↔ y ∈ s.pending_async)))
    ∧ (wakeResult rest ≠ MessageResult.requestRebuild →
      AppTask.step wakeResult np now s (TaskInput.msg (AppMessage.wake (a :: rest))) =
        some (s, ⟨false, false, true⟩)) := by
  obtain ⟨P, u, dln, hvw⟩ := s
  simp only at hv
  subst hv
  have herase : ∀ (Q : Finset Ident),
      ((a :: rest).getLast (List.cons_ne_nil a rest)) ∉
          Q.erase ((a :: rest).getLast (List.cons_ne_nil a rest)) ∧
        ∀ y, y ≠ (a :: rest).getLast (List.cons_ne_nil a rest) →
          (y ∈ Q.erase ((a :: rest).getLast (List.cons_ne_nil a rest)) ↔ y ∈ Q) := by
    intro Q
    refine ⟨Finset.not_mem_erase _ _, fun y hy => ?_⟩
    exact ⟨fun hm => (Finset.mem_erase.mp hm).2, fun hm => Finset.mem_erase.mpr ⟨hy, hm⟩⟩
  constructor
  · intro hw
    cases u with
    | start =>
      simp [AppTask.step, hw]
      exact ⟨_, _, ⟨rfl, rfl⟩, fun _ => ⟨rfl, (herase P).1, fun y hy => (herase P).2 y hy⟩⟩
    | wokeUI =>
      simp [AppTask.step, hw]
      exact ⟨_, _, ⟨rfl, rfl⟩, fun _ => ⟨rfl, (herase P).1, fun y hy => (herase P).2 y hy⟩⟩
    | delayed =>
      by_cases hc : P.erase ((a :: rest).getLast (List.cons_ne_nil a rest)) = ∅
      · simp [AppTask.step, hw, hc]
        exact ⟨_, _, ⟨rfl, rfl⟩, fun hf => absurd hf (by decide)⟩
      · simp [AppTask.step, hw, hc]
        exact ⟨_, _, ⟨rfl, rfl⟩, fun _ => ⟨rfl, (herase P).1, fun y hy => (herase P).2 y hy⟩⟩
  · intro hw
    simp only [AppTask.step]
    rw [if_neg (by simp), if_neg hw]

/-- Witness for the amended C3: from pending `{1, 2}`, a rebuild-requesting
wake for the path `[0, 1]` leaves a set in which `1` is gone and `2` remains. -/
theorem wake_removes_exactly_last_witness :
    ∃ s2 o,
      AppTask.step (fun _ => MessageResult.requestRebuild) ∅ 0
          ⟨{1, 2}, UiState.start, none, true⟩ (TaskInput.msg (AppMessage.wake [0, 1])) =
        some (s2, o) ∧
      (o.rendered = false →
        s2.pending_async = ({1, 2} : Finset Ident).erase (([0, 1] : List Ident).getLast
            (List.cons_ne_nil 0 [1])) ∧
        (([0, 1] : List Ident).getLast (List.cons_ne_nil 0 [1])) ∉ s2.pending_async ∧
        ∀ y, y ≠ ([0, 1] : List Ident).getLast (List.cons_ne_nil 0 [1]) →
          (y ∈ s2.pending_async ↔ y ∈ ({1, 2} : Finset Ident))) :=
  (wake_removes_exactly_last (fun _ => MessageResult.requestRebuild) ∅ 0
    ⟨{1, 2}, UiState.start, none, true⟩ 0 [1] rfl).1 rfl

/-- Claim C4: in the `Delayed` state with an armed deadline, rebuild-requesting
completions for all distinct pending identities before the deadline produce
exactly one render for the whole burst, issued when the set empties, with the
deadline cancelled (first conjunct, for an arbitrary non-empty duplicate-free
burst); and a completion arriving only after the deadline has fired produces a
second, separate render: the elapsed deadline renders once, the late wake
renders nothing itself but sends `Event::Wake` to the render loop, and the
render request this provokes renders a second time (second conjunct). -/
theorem debounce_burst_single_render (r now dl : Nat) (np : Finset Ident)
    (ids : List Ident) (hne : ids ≠ []) (hnd : ids.Nodup) :
    (∃ os, AppTask.runSteps (fun _ => MessageResult.requestRebuild) np now
        ⟨ids.toFinset, UiState.delayed, some dl, true⟩
        (ids.map (fun i => TaskInput.msg (AppMessage.wake [r, i]))) =
      some (⟨np, UiState.start, none, true⟩, os) ∧ renderCount os = 1)
    ∧ AppTask.runSteps (fun _ => MessageResult.requestRebuild) {2, 3} 0
        ⟨{2, 3}, UiState.delayed, some 5, true⟩
        [TaskInput.timeout, TaskInput.msg (AppMessage.wake [0, 2]),
          TaskInput.msg (AppMessage.render false)] =
      some (⟨{2, 3}, UiState.start, none, true⟩,
        [⟨true, false, true⟩, ⟨false, true, true⟩, ⟨true, false, true⟩]) :=
  ⟨burst_aux r now dl np ids hne hnd, by decide⟩

/-- Witness for C4 at the concrete burst `[1, 2, 3]`. -/
theorem debounce_burst_single_render_witness :
    (∃ os, AppTask.runSteps (fun _ => MessageResult.requestRebuild) ∅ 7
        ⟨([1, 2, 3] : List Ident).toFinset, UiState.delayed, some 100, true⟩
        (([1, 2, 3] : List Ident).map (fun i => TaskInput.msg (AppMessage.wake [0, i]))) =
      some (⟨∅, UiState.start, none, true⟩, os) ∧ renderCount os = 1)
    ∧ AppTask.runSteps (fun _ => MessageResult.requestRebuild) {2, 3} 0
        ⟨{2, 3}, UiState.delayed, some 5, true⟩
        [TaskInput.timeout, TaskInput.msg (AppMessage.wake [0, 2]),
          TaskInput.msg (AppMessage.render false)] =
      some (⟨{2, 3}, UiState.start, none, true⟩,
        [⟨true, false, true⟩, ⟨false, true, true⟩, ⟨true, false, true⟩]) :=
  debounce_burst_single_render 0 7 100 ∅ [1, 2, 3] (by decide) (by decide)

/-- Claim C6: in every `App::render` pass, the layout computation runs if and
only if the root flags contain `REQUEST_LAYOUT` or `TREE_CHANGED`, or the
freshly queried terminal size differs from the last recorded size; when none
of these hold the layout pass is skipped entirely — the recorded size is left
untouched and paint is not triggered on layout's account. -/
theorem layout_pass_iff (flags : PodFlags) (termSize size : Size) :
    ((App.renderPasses flags termSize size).layoutRan = true ↔
      (flags.requestLayout = true ∨ flags.treeChanged = true ∨ termSize ≠ size))
    ∧ ((App.renderPasses flags termSize size).layoutRan = false →
      (App.renderPasses flags termSize size).newSize = size ∧
        (App.renderPasses flags termSize size).paintRan = flags.requestPaint) := by
  constructor
  · simp [App.renderPasses]
    tauto
  · intro h
    simp only [App.renderPasses] at h
    simp only [Bool.or_eq_false_iff, decide_eq_false_iff_not, not_not] at h
    obtain ⟨⟨h1, h2⟩, h3⟩ := h
    subst h3
    simp [App.renderPasses, h1, h2]

/-- Witness for C6 at clear layout flags and an unchanged `80x24` size. -/
theorem layout_pass_iff_witness :
    (App.renderPasses ⟨false, true, false, true⟩ ⟨80, 24⟩ ⟨80, 24⟩).newSize = ⟨80, 24⟩ ∧
    (App.renderPasses ⟨false, true, false, true⟩ ⟨80, 24⟩ ⟨80, 24⟩).paintRan =
      (⟨false, true, false, true⟩ : PodFlags).requestPaint :=
  (layout_pass_iff ⟨false, true, false, true⟩ ⟨80, 24⟩ ⟨80, 24⟩).2 (by decide)

/-- Claim C7: on every rebuild, if the retained root widget cannot be downcast
to the element type the new view expects, `App::build_widget_tree` panics
(`.expect(..)`, modelled as `none`); conversely any rebuild that completes
did so with matching root widget type — the rebuild never proceeds
mismatched. -/
theorem root_downcast_mismatch {S : Type} (v : ViewOps S) (resp : RenderResponse S)
    (app : AppUi) (pod : Pod) (hp : app.root_pod = some pod) :
    (pod.widgetType ≠ v.elementType → App.build_widget_tree v resp app = none)
    ∧ (∀ out, App.build_widget_tree v resp app = some out →
        pod.widgetType = v.elementType) := by
  have hno : pod.widgetType ≠ v.elementType → App.build_widget_tree v resp app = none := by
    intro hne
    simp only [App.build_widget_tree, hp]
    match resp.state, resp.hasPrev, app.id with
    | some st, true, some rootId =>
      simp [Pod.downcast_mut, hne]
    | none, _, _ => rfl
    | some st, false, _ => rfl
    | some st, true, none => rfl
  refine ⟨hno, ?_⟩
  intro out hout
  by_contra hne
  rw [hno hne] at hout
  exact Option.noConfusion hout

/-- Witness for C7: rebuilding a retained type-7 root with a view expecting
type 8 panics. -/
theorem root_downcast_mismatch_witness :
    App.build_widget_tree vopsBad respNext appWithPod = none :=
  (root_downcast_mismatch vopsBad respNext appWithPod ⟨7, 0⟩ rfl).1 (by decide)

/-- Claim C8: for every top-level build and rebuild, the context's id path is
empty after the call — the `assert!(self.cx.is_empty(), ..)` right after the
view call makes any imbalance fatal, so no completed call ever returns with a
non-empty path (first conjunct, for arbitrary view behaviour) — and along any
run from the initial `App` state the path is also empty before each call,
since every prefix of the run leaves it empty (second conjunct). -/
theorem id_path_balance (S : Type) :
    (∀ (v : ViewOps S) (resp : RenderResponse S) (app : AppUi) (out : AppUi × Bool),
      App.build_widget_tree v resp app = some out → out.1.cx.idPath = [])
    ∧ (∀ (seq : List (ViewOps S × RenderResponse S)) (app1 : AppUi),
      App.renderSeq seq AppUi.initial = some app1 → app1.cx.idPath = []) := by
  have h1 : ∀ (v : ViewOps S) (resp : RenderResponse S) (app : AppUi) (out : AppUi × Bool),
      App.build_widget_tree v resp app = some out → out.1.cx.idPath = [] := by
    intro v resp app out h
    simp only [App.build_widget_tree] at h
    split at h
    · split at h
      · split at h
        · exact absurd h (by simp)
        · split at h
          · rename_i hemp
            simp only [Option.some.injEq] at h
            rw [← h]
            simpa [Cx.is_empty, List.isEmpty_iff] using hemp
          · exact absurd h (by simp)
      · exact absurd h (by simp)
    · split at h
      · rename_i hemp
        simp only [Option.some.injEq] at h
        rw [← h]
        simpa [Cx.is_empty, List.isEmpty_iff] using hemp
      · exact absurd h (by simp)
  refine ⟨h1, ?_⟩
  intro seq
  suffices hsuf : ∀ (app : AppUi), app.cx.idPath = [] → ∀ app1,
      App.renderSeq seq app = some app1 → app1.cx.idPath = [] by
    intro app1 h
    exact hsuf AppUi.initial rfl app1 h
  induction seq with
  | nil =>
    intro app happ app1 h
    simp only [App.renderSeq, Option.some.injEq] at h
    rw [← h]
    exact happ
  | cons p rest ih =>
    intro app happ app1 h
    obtain ⟨v, r⟩ := p
    simp only [App.renderSeq] at h
    split at h
    · exact absurd h (by simp)
    · rename_i app2 hstep
      exact ih _ (h1 v r app _ hstep) app1 h

/-- Witness for C8: a build followed by a rebuild from the initial state
completes, and the resulting context path is empty. -/
theorem id_path_balance_witness :
    App.renderSeq [(vopsId, respFirst), (vopsId, respNext)] AppUi.initial =
      some ⟨⟨[], ∅⟩, some ⟨7, 1⟩, some 0⟩ ∧
    (⟨⟨[], ∅⟩, some ⟨7, 1⟩, some 0⟩ : AppUi).cx.idPath = [] :=
  ⟨rfl, (id_path_balance Unit).2 [(vopsId, respFirst), (vopsId, respNext)] _ rfl⟩

lemma isQuit_eq_true (e : Event) : Event.isQuit e = true ↔ e = Event.quit := by
  cases e <;> simp [Event.isQuit]

/-- Claim C9: within one cycle of `App::run`, the actions are exactly the
dispatches of all drained notifications in arrival order, then the forwarding
of produced application messages, then a single render request — so every
dispatch precedes the render request, the render request is last, the loop
exits after the cycle exactly when some drained notification was `Quit`, and
even a quitting cycle still performs its render. -/
theorem render_cycle_order (first : Event) (drained : List Event) (m : Bool) :
    ((App.cycle first drained true m).1 =
        ((first :: drained).map UiAction.dispatchEvent ++
          (if m then [UiAction.sendEvents] else [])) ++ [UiAction.requestRender])
    ∧ (App.cycle first drained true m).1.getLast? = some UiAction.requestRender
    ∧ ((App.cycle first drained true m).2 = true ↔ Event.quit ∈ first :: drained)
    ∧ UiAction.requestRender ∈ (App.cycle first drained true m).1 := by
  have h1 : (App.cycle first drained true m).1 =
      ((first :: drained).map UiAction.dispatchEvent ++
        (if m then [UiAction.sendEvents] else [])) ++ [UiAction.requestRender] := by
    simp [App.cycle]
  refine ⟨h1, ?_, ?_, ?_⟩
  · rw [h1]
    exact List.getLast?_concat _
  · simp only [App.cycle, List.any_eq_true, isQuit_eq_true]
    constructor
    · rintro ⟨x, hx, rfl⟩
      exact hx
    · intro hx
      exact ⟨Event.quit, hx, rfl⟩
  · rw [h1]
    simp

mutual
/-- Building a view allocates a conforming id/state tree. -/
theorem ViewT.build_conforms : ∀ (v : ViewT) (c : Nat), Conforms v (v.build c).1
  | ViewT.node k cs, c => by
    simp only [ViewT.build]
    exact Conforms.node k c (c + 1) cs _ (ViewList.buildAll_conforms cs (c + 2))
theorem ViewList.buildAll_conforms :
    ∀ (vs : ViewList) (c : Nat), ConformsAll vs (ViewList.buildAll vs c).1
  | ViewList.nil, _c => ConformsAll.nil
  | ViewList.cons v vs, c => by
    simp only [ViewList.buildAll]
    exact ConformsAll.cons v vs _ _ (ViewT.build_conforms v c)
      (ViewList.buildAll_conforms vs (ViewT.build v c).2)
end

mutual
/-- Rebuilding an unchanged view against a conforming retained tree returns
that tree unchanged and allocates nothing. -/
theorem ViewT.rebuild_self : ∀ (v : ViewT) (t : IdTree), Conforms v t →
    ∀ (c : Nat), ViewT.rebuild v v t c = (t, c)
  | ViewT.node k cs, IdTree.node ident st f, h, c => by
    have hall : ConformsAll cs f := by cases h; assumption
    simp [ViewT.rebuild, ViewList.rebuildAll_self cs f hall c]
theorem ViewList.rebuildAll_self : ∀ (vs : ViewList) (f : IdForest), ConformsAll vs f →
    ∀ (c : Nat), ViewList.rebuildAll vs vs f c = (f, c)
  | ViewList.nil, IdForest.nil, _, _c => rfl
  | ViewList.cons v vs, IdForest.cons t f, h, c => by
    have hone : Conforms v t := by cases h; assumption
    have hrest : ConformsAll vs f := by cases h; assumption
    simp only [ViewList.rebuildAll, ViewT.rebuild_self v t hone c,
      ViewList.rebuildAll_self vs f hrest c]
  | ViewList.nil, IdForest.cons t f, h, _c => by cases h
  | ViewList.cons v vs, IdForest.nil, h, _c => by cases h
end

/-- Claim C1: for every sequence of rebuild calls on a structurally unchanged
view tree, the retained id/state tree after the sequence is exactly the one
the initial build produced — every node keeps the Identity and the private
state token it had (the root's in particular, as the root of the returned
tree), and the identity counter is untouched, so nothing was reallocated. -/
theorem identity_and_state_stable_across_rebuilds (v : ViewT) (c0 : Nat) (n : Nat) :
    iterateRebuild v n (ViewT.build v c0) = ViewT.build v c0 := by
  induction n with
  | zero => rfl
  | succ m ih =>
    have hconf : Conforms v (ViewT.build v c0).1 := ViewT.build_conforms v c0
    calc iterateRebuild v (m + 1) (ViewT.build v c0)
        = iterateRebuild v m (ViewT.rebuild v v (ViewT.build v c0).1 (ViewT.build v c0).2) := rfl
      _ = iterateRebuild v m (ViewT.build v c0) := by
          rw [ViewT.rebuild_self v (ViewT.build v c0).1 hconf (ViewT.build v c0).2]
      _ = ViewT.build v c0 := ih

/-- Claim C10: for every input list of styles, the `Styles` value returned by
`Styles::new` has empty `styles_by_id`, `styles_by_widget_type_id`,
`styles_by_class` and `styles_by_attribute` maps while retaining the style
list itself — the indexing is written as `iter().inspect(..)` chains that are
never consumed, so no style is ever indexed; the final conjunct shows the
translated insertion body would genuinely have indexed a style carrying an id
had the chains been iterated. -/
theorem styles_new_indexes_nothing (styles : List StyleV) :
    (Styles.new styles).styles_by_id = [] ∧
    (Styles.new styles).styles_by_widget_type_id = [] ∧
    (Styles.new styles).styles_by_class = [] ∧
    (Styles.new styles).styles_by_attribute = [] ∧
    (Styles.new styles).styles = styles ∧
    insertById ⟨0, 0, some "x", []⟩ "x" [] = [("x", [⟨0, 0, some "x", []⟩])] :=
  ⟨rfl, rfl, rfl, rfl, rfl, by decide⟩

end Trui
